import Mathlib

/-!
Verification of the messaging core of the `atomic-void` repository
(`src/platform/messaging/kafka/kafka.ts` and
`src/platform/messaging/kafka/index.ts`).

The development shallowly embeds:
 * a JSON value model with `jsonStringify` / `jsonParse`, modelling the
   JavaScript built-ins `JSON.stringify` / `JSON.parse` that the publisher
   and the subscriber callback delegate to (numbers are modelled as
   integers; floating-point formatting is outside the model);
 * the connection-retry loop `retryKafkaConnection`;
 * the module-level shutdown path `shutdownKafka`;
 * the cache-updating subscriber callback `kafkaCallback` and the
   `KafkaPublisher` variants (`publish` with the optional-chained producer,
   and the static `create` with admin-based topic provisioning).
-/

/- ### JSON value model

`Json` is the space of JSON-representable payloads: the values that
`JSON.stringify` serializes structurally.  Arrays and objects are separate
mutual inductives so that mutual structural induction is available. -/

mutual

inductive Json : Type where
  | null : Json
  | bool : Bool → Json
  | num : Int → Json
  | str : String → Json
  | arr : JsonArr → Json
  | obj : JsonObj → Json
deriving DecidableEq

inductive JsonArr : Type where
  | nil : JsonArr
  | cons : Json → JsonArr → JsonArr
deriving DecidableEq

inductive JsonObj : Type where
  | nil : JsonObj
  | cons : String → Json → JsonObj → JsonObj
deriving DecidableEq

end

/-- The decimal digit character for `d < 10`. -/
def digitChar (d : Nat) : Char := Char.ofNat (48 + d)

/-- Is `c` one of the characters `0`–`9`? -/
def isDigitChar (c : Char) : Bool := decide ('0' ≤ c) && decide (c ≤ '9')

/-- Numeric value of a digit character. -/
def digitVal (c : Char) : Nat := c.toNat - 48

/-- Fuel-indexed digit emitter (structural recursion on the fuel keeps it
kernel-reducible); `natDigits` supplies sufficient fuel. -/
def natDigitsAux : Nat → Nat → List Char
  | 0, _ => []
  | f + 1, n =>
    if n < 10 then [digitChar n]
    else natDigitsAux f (n / 10) ++ [digitChar (n % 10)]

/-- Decimal digit string of a natural number, most significant digit first
(the integer formatting used by `JSON.stringify` for whole numbers). -/
def natDigits (n : Nat) : List Char := natDigitsAux (n + 1) n

/-- Decimal character representation of an integer. -/
def intChars (n : Int) : List Char :=
  if n < 0 then '-' :: natDigits n.natAbs else natDigits n.natAbs

/-- Escaping of one string character by `JSON.stringify` (the model covers the
quote and backslash escapes; control-character escapes are outside the
model). -/
def escapeChar (c : Char) : List Char :=
  if c = '"' then ['\\', '"']
  else if c = '\\' then ['\\', '\\']
  else [c]

/-- Escaping of a whole string body. -/
def escapeList : List Char → List Char
  | [] => []
  | c :: cs => escapeChar c ++ escapeList cs

/-- A double-quoted, escaped JSON string literal. -/
def quoteChars (s : String) : List Char :=
  '"' :: (escapeList s.data ++ ['"'])

mutual

/-- Character stream produced by `JSON.stringify` on a `Json` value:
no whitespace, object keys in insertion order. -/
def Json.chars : Json → List Char
  | .null => "null".data
  | .bool true => "true".data
  | .bool false => "false".data
  | .num n => intChars n
  | .str s => quoteChars s
  | .arr .nil => ['[', ']']
  | .arr (.cons v vs) => '[' :: (Json.chars v ++ JsonArr.tailChars vs ++ [']'])
  | .obj .nil => ['\x7b', '\x7d']
  | .obj (.cons k v fs) =>
      '\x7b' :: (quoteChars k ++ ':' :: (Json.chars v ++ JsonObj.tailChars fs ++ ['\x7d']))

/-- Printed form `",elem"` for each further array element. -/
def JsonArr.tailChars : JsonArr → List Char
  | .nil => []
  | .cons v vs => ',' :: (Json.chars v ++ JsonArr.tailChars vs)

/-- Printed form `",\"key\":value"` for each further object field. -/
def JsonObj.tailChars : JsonObj → List Char
  | .nil => []
  | .cons k v fs => ',' :: (quoteChars k ++ ':' :: (Json.chars v ++ JsonObj.tailChars fs))

end

/-- The string `JSON.stringify` produces for a payload. -/
def jsonStringify (v : Json) : String := ⟨Json.chars v⟩

/-- Parse the body of a JSON string literal after its opening quote:
returns the unescaped characters and the remainder after the closing
quote. -/
def parseStringBody : List Char → Option (List Char × List Char)
  | [] => none
  | '"' :: rest => some ([], rest)
  | '\\' :: [] => none
  | '\\' :: e :: rest =>
    match parseStringBody rest with
    | none => none
    | some (s, r) => some (e :: s, r)
  | c :: rest =>
    match parseStringBody rest with
    | none => none
    | some (s, r) => some (c :: s, r)

/-- Consume a maximal run of digit characters, accumulating their value. -/
def takeDigits : List Char → Nat → Nat × List Char
  | [], acc => (acc, [])
  | c :: cs, acc =>
    if isDigitChar c then takeDigits cs (acc * 10 + digitVal c)
    else (acc, c :: cs)

mutual

/-- Fuel-indexed recursive-descent JSON value parser (model of
`JSON.parse`, restricted to the grammar `jsonStringify` emits: no
whitespace skipping, integer numerals). -/
def parseVal : Nat → List Char → Option (Json × List Char)
  | 0, _ => none
  | _ + 1, [] => none
  | f + 1, c :: rest =>
    if c = 'n' then
      match rest with
      | 'u' :: 'l' :: 'l' :: r => some (.null, r)
      | _ => none
    else if c = 't' then
      match rest with
      | 'r' :: 'u' :: 'e' :: r => some (.bool true, r)
      | _ => none
    else if c = 'f' then
      match rest with
      | 'a' :: 'l' :: 's' :: 'e' :: r => some (.bool false, r)
      | _ => none
    else if c = '"' then
      match parseStringBody rest with
      | none => none
      | some (s, r) => some (.str ⟨s⟩, r)
    else if c = '[' then
      match rest with
      | [] => none
      | c₂ :: rest₂ =>
        if c₂ = ']' then some (.arr .nil, rest₂)
        else
          match parseVal f (c₂ :: rest₂) with
          | none => none
          | some (v, r) =>
            match parseArrTail f r with
            | none => none
            | some (vs, r₂) => some (.arr (.cons v vs), r₂)
    else if c = '\x7b' then
      match rest with
      | [] => none
      | c₂ :: rest₂ =>
        if c₂ = '\x7d' then some (.obj .nil, rest₂)
        else
          match parsePair f (c₂ :: rest₂) with
          | none => none
          | some (k, v, r) =>
            match parseObjTail f r with
            | none => none
            | some (fs, r₂) => some (.obj (.cons k v fs), r₂)
    else if c = '-' then
      match rest with
      | [] => none
      | d :: rest₂ =>
        if isDigitChar d then
          let p := takeDigits rest₂ (digitVal d)
          some (.num (-(p.1 : Int)), p.2)
        else none
    else if isDigitChar c then
      let p := takeDigits rest (digitVal c)
      some (.num ((p.1 : Nat) : Int), p.2)
    else none

/-- Parse the tail of an array: either `]` or `,value` repeated. -/
def parseArrTail : Nat → List Char → Option (JsonArr × List Char)
  | 0, _ => none
  | _ + 1, [] => none
  | f + 1, c :: rest =>
    if c = ']' then some (.nil, rest)
    else if c = ',' then
      match parseVal f rest with
      | none => none
      | some (v, r) =>
        match parseArrTail f r with
        | none => none
        | some (vs, r₂) => some (.cons v vs, r₂)
    else none

/-- Parse one `"key":value` pair of an object. -/
def parsePair : Nat → List Char → Option (String × Json × List Char)
  | 0, _ => none
  | _ + 1, [] => none
  | f + 1, c :: rest =>
    if c = '"' then
      match parseStringBody rest with
      | none => none
      | some (k, r) =>
        match r with
        | ':' :: r₂ =>
          match parseVal f r₂ with
          | none => none
          | some (v, r₃) => some (⟨k⟩, v, r₃)
        | _ => none
    else none

/-- Parse the tail of an object: either `\x7d` or `,"key":value` repeated. -/
def parseObjTail : Nat → List Char → Option (JsonObj × List Char)
  | 0, _ => none
  | _ + 1, [] => none
  | f + 1, c :: rest =>
    if c = '\x7d' then some (.nil, rest)
    else if c = ',' then
      match parsePair f rest with
      | none => none
      | some (k, v, r) =>
        match parseObjTail f r with
        | none => none
        | some (fs, r₂) => some (.cons k v fs, r₂)
    else none

end

/-- Model of `JSON.parse`: succeeds exactly when the whole input is one
JSON value (fuel is bounded by the input length, which suffices: each
parser step consumes at least one character). -/
def jsonParse (s : String) : Option Json :=
  match parseVal (s.data.length + 1) s.data with
  | some (v, []) => some v
  | _ => none

example : jsonParse "null" = some Json.null := by rfl
example : jsonParse "true" = some (Json.bool true) := by rfl
example : jsonParse "[1,2]" =
    some (Json.arr (.cons (.num 1) (.cons (.num 2) .nil))) := by rfl
example : jsonParse "not json" = none := by rfl
example : jsonParse "-57" = some (Json.num (-57)) := by rfl
example : jsonStringify (Json.num (-57)) = "-57" := by rfl
example : jsonParse "\x7b\"a\":[true,null]\x7d" =
    some (Json.obj (.cons "a" (.arr (.cons (.bool true) (.cons .null .nil))) .nil)) := by
  rfl
example : jsonStringify (Json.obj (.cons "a" (.str "x\"y") .nil)) =
    "\x7b\"a\":\"x\\\"y\"\x7d" := by rfl
example : jsonParse (jsonStringify (Json.obj (.cons "a" (.str "x\"y") .nil))) =
    some (Json.obj (.cons "a" (.str "x\"y") .nil)) := by rfl

/- ### Serialize/parse round trip -/

/-- The continuation after a printed number must not begin with a digit
(inside stringified JSON it is always `,`, `]`, `\x7d`, or the end). -/
def noLeadDigit : List Char → Bool
  | [] => true
  | c :: _ => !isDigitChar c

theorem isDigitChar_ne {c x : Char} (h : isDigitChar c = true)
    (hx : isDigitChar x = false) : c ≠ x := by
  intro he
  subst he
  rw [h] at hx
  cases hx

theorem isDigitChar_digitChar {d : Nat} (h : d < 10) :
    isDigitChar (digitChar d) = true := by
  interval_cases d <;> decide

theorem digitVal_digitChar {d : Nat} (h : d < 10) :
    digitVal (digitChar d) = d := by
  interval_cases d <;> decide

theorem digit_head_ne {c : Char} (h : isDigitChar c = true) :
    c ≠ 'n' ∧ c ≠ 't' ∧ c ≠ 'f' ∧ c ≠ '"' ∧ c ≠ '[' ∧ c ≠ '\x7b' ∧ c ≠ '-' := by
  refine ⟨?_, ?_, ?_, ?_, ?_, ?_, ?_⟩ <;> exact isDigitChar_ne h (by decide)

theorem natDigitsAux_head {f n : Nat} (h : n < f) :
    ∃ d tl, d < 10 ∧ natDigitsAux f n = digitChar d :: tl := by
  induction f generalizing n with
  | zero => omega
  | succ f ih =>
    rw [natDigitsAux]
    by_cases hn : n < 10
    · exact ⟨n, [], hn, by simp [hn]⟩
    · have hlt : n / 10 < f := by
        have := Nat.div_lt_self (by omega : 0 < n) (by omega : 1 < 10)
        omega
      obtain ⟨d, tl, hd, htl⟩ := ih hlt
      exact ⟨d, tl ++ [digitChar (n % 10)], hd, by simp [hn, htl]⟩

theorem natDigitsAux_digits {f n : Nat} (h : n < f) :
    ∀ c ∈ natDigitsAux f n, isDigitChar c = true := by
  induction f generalizing n with
  | zero => omega
  | succ f ih =>
    intro c hc
    rw [natDigitsAux] at hc
    by_cases hn : n < 10
    · rw [if_pos hn] at hc
      simp at hc
      subst hc
      exact isDigitChar_digitChar hn
    · rw [if_neg hn] at hc
      have hlt : n / 10 < f := by
        have := Nat.div_lt_self (by omega : 0 < n) (by omega : 1 < 10)
        omega
      rcases List.mem_append.mp hc with hc | hc
      · exact ih hlt c hc
      · simp at hc
        subst hc
        exact isDigitChar_digitChar (Nat.mod_lt n (by omega))

/-- The value accumulated by scanning a digit string left to right. -/
def digitsVal : Nat → List Char → Nat
  | acc, [] => acc
  | acc, c :: cs => digitsVal (acc * 10 + digitVal c) cs

theorem digitsVal_nil (acc : Nat) : digitsVal acc [] = acc := rfl

theorem digitsVal_cons (acc : Nat) (c : Char) (cs : List Char) :
    digitsVal acc (c :: cs) = digitsVal (acc * 10 + digitVal c) cs := rfl

theorem takeDigits_nil (acc : Nat) : takeDigits [] acc = (acc, []) := rfl

theorem takeDigits_cons (acc : Nat) (c : Char) (cs : List Char) :
    takeDigits (c :: cs) acc =
      if isDigitChar c then takeDigits cs (acc * 10 + digitVal c)
      else (acc, c :: cs) := rfl

theorem digitsVal_append (acc : Nat) (xs ys : List Char) :
    digitsVal acc (xs ++ ys) = digitsVal (digitsVal acc xs) ys := by
  induction xs generalizing acc with
  | nil => rfl
  | cons c cs ih =>
    rw [List.cons_append, digitsVal_cons, digitsVal_cons, ih]

theorem digitsVal_natDigitsAux {f n : Nat} (h : n < f) (acc : Nat) :
    digitsVal acc (natDigitsAux f n) =
      acc * 10 ^ (natDigitsAux f n).length + n := by
  induction f generalizing n acc with
  | zero => omega
  | succ f ih =>
    rw [natDigitsAux]
    by_cases hn : n < 10
    · rw [if_pos hn, digitsVal_cons, digitVal_digitChar hn]
      rw [digitsVal_nil]
      simp
    · rw [if_neg hn]
      have hlt : n / 10 < f := by
        have := Nat.div_lt_self (by omega : 0 < n) (by omega : 1 < 10)
        omega
      rw [digitsVal_append, ih hlt]
      have hm : n % 10 < 10 := Nat.mod_lt n (by omega)
      rw [digitsVal_cons, digitVal_digitChar hm]
      rw [digitsVal_nil]
      have hlen : (natDigitsAux f (n / 10) ++ [digitChar (n % 10)]).length =
          (natDigitsAux f (n / 10)).length + 1 := by simp
      rw [hlen, pow_succ, ← mul_assoc]
      have hdm : 10 * (n / 10) + n % 10 = n := Nat.div_add_mod n 10
      set u := acc * 10 ^ (natDigitsAux f (n / 10)).length with hu
      omega

theorem takeDigits_append {ds : List Char} (hds : ∀ c ∈ ds, isDigitChar c = true)
    {rest : List Char} (hrest : noLeadDigit rest = true) (acc : Nat) :
    takeDigits (ds ++ rest) acc = (digitsVal acc ds, rest) := by
  induction ds generalizing acc with
  | nil =>
    cases rest with
    | nil => rfl
    | cons c cs =>
      simp [noLeadDigit] at hrest
      rw [List.nil_append, takeDigits_cons, if_neg (by simp [hrest]), digitsVal_nil]
  | cons c cs ih =>
    have hc : isDigitChar c = true := hds c (by simp)
    rw [List.cons_append, takeDigits_cons, if_pos hc, digitsVal_cons]
    exact ih (fun x hx => hds x (by simp [hx])) _

/-- Scanning the printed digits of `n` (first digit peeled off, as the
parser's dispatch does) recovers exactly `n` and the untouched suffix. -/
theorem natDigits_scan {n : Nat} {rest : List Char}
    (hrest : noLeadDigit rest = true) :
    ∃ d tl, d < 10 ∧ natDigits n = digitChar d :: tl ∧
      takeDigits (tl ++ rest) (digitVal (digitChar d)) = (n, rest) := by
  obtain ⟨d, tl, hd, he⟩ := natDigitsAux_head (Nat.lt_succ_self n)
  refine ⟨d, tl, hd, he, ?_⟩
  have hds : ∀ c ∈ tl, isDigitChar c = true := fun c hc =>
    natDigitsAux_digits (Nat.lt_succ_self n) c (by rw [he]; exact List.mem_cons_of_mem _ hc)
  rw [takeDigits_append hds hrest]
  have hval := digitsVal_natDigitsAux (Nat.lt_succ_self n) 0
  rw [he, digitsVal_cons] at hval
  norm_num at hval
  rw [hval]

theorem parseStringBody_escape (s rest : List Char) :
    parseStringBody (escapeList s ++ '"' :: rest) = some (s, rest) := by
  induction s with
  | nil => simp [escapeList, parseStringBody]
  | cons c cs ih =>
    by_cases h1 : c = '"'
    · subst h1
      simp [escapeList, escapeChar, parseStringBody, ih]
    · by_cases h2 : c = '\\'
      · subst h2
        simp [escapeList, escapeChar, parseStringBody, ih]
      · simp [escapeList, escapeChar, h1, h2, parseStringBody, ih]

/- Unfolding equations stated by hand (the definitional reductions used by
the round-trip proof). -/

theorem chars_null : Json.chars .null = ['n', 'u', 'l', 'l'] := rfl

theorem chars_true : Json.chars (.bool true) = ['t', 'r', 'u', 'e'] := rfl

theorem chars_false : Json.chars (.bool false) = ['f', 'a', 'l', 's', 'e'] := rfl

theorem chars_num (n : Int) : Json.chars (.num n) = intChars n := rfl

theorem chars_str (s : String) : Json.chars (.str s) = quoteChars s := rfl

theorem chars_arrNil : Json.chars (.arr .nil) = ['[', ']'] := rfl

theorem chars_arrCons (v : Json) (vs : JsonArr) :
    Json.chars (.arr (.cons v vs)) =
      '[' :: (Json.chars v ++ JsonArr.tailChars vs ++ [']']) := rfl

theorem chars_objNil : Json.chars (.obj .nil) = ['\x7b', '\x7d'] := rfl

theorem chars_objCons (k : String) (v : Json) (fs : JsonObj) :
    Json.chars (.obj (.cons k v fs)) =
      '\x7b' :: (quoteChars k ++ ':' :: (Json.chars v ++ JsonObj.tailChars fs ++ ['\x7d'])) :=
  rfl

theorem tailChars_nil : JsonArr.tailChars .nil = [] := rfl

theorem tailChars_cons (v : Json) (vs : JsonArr) :
    JsonArr.tailChars (.cons v vs) = ',' :: (Json.chars v ++ JsonArr.tailChars vs) := rfl

theorem objTailChars_nil : JsonObj.tailChars .nil = [] := rfl

theorem objTailChars_cons (k : String) (v : Json) (fs : JsonObj) :
    JsonObj.tailChars (.cons k v fs) =
      ',' :: (quoteChars k ++ ':' :: (Json.chars v ++ JsonObj.tailChars fs)) := rfl

theorem noLeadDigit_nil : noLeadDigit [] = true := rfl

theorem noLeadDigit_cons (c : Char) (cs : List Char) :
    noLeadDigit (c :: cs) = !isDigitChar c := rfl

theorem parseVal_zero (cs : List Char) : parseVal 0 cs = none := rfl

theorem parseVal_succ_cons (f : Nat) (c : Char) (rest : List Char) :
    parseVal (f + 1) (c :: rest) =
      (if c = 'n' then
        match rest with
        | 'u' :: 'l' :: 'l' :: r => some (.null, r)
        | _ => none
      else if c = 't' then
        match rest with
        | 'r' :: 'u' :: 'e' :: r => some (.bool true, r)
        | _ => none
      else if c = 'f' then
        match rest with
        | 'a' :: 'l' :: 's' :: 'e' :: r => some (.bool false, r)
        | _ => none
      else if c = '"' then
        match parseStringBody rest with
        | none => none
        | some (s, r) => some (.str ⟨s⟩, r)
      else if c = '[' then
        match rest with
        | [] => none
        | c₂ :: rest₂ =>
          if c₂ = ']' then some (.arr .nil, rest₂)
          else
            match parseVal f (c₂ :: rest₂) with
            | none => none
            | some (v, r) =>
              match parseArrTail f r with
              | none => none
              | some (vs, r₂) => some (.arr (.cons v vs), r₂)
      else if c = '\x7b' then
        match rest with
        | [] => none
        | c₂ :: rest₂ =>
          if c₂ = '\x7d' then some (.obj .nil, rest₂)
          else
            match parsePair f (c₂ :: rest₂) with
            | none => none
            | some (k, v, r) =>
              match parseObjTail f r with
              | none => none
              | some (fs, r₂) => some (.obj (.cons k v fs), r₂)
      else if c = '-' then
        match rest with
        | [] => none
        | d :: rest₂ =>
          if isDigitChar d then
            some (.num (-((takeDigits rest₂ (digitVal d)).1 : Int)),
              (takeDigits rest₂ (digitVal d)).2)
          else none
      else if isDigitChar c then
        some (.num (((takeDigits rest (digitVal c)).1 : Nat) : Int),
          (takeDigits rest (digitVal c)).2)
      else none) := rfl

theorem parseVal_null (f : Nat) (r : List Char) :
    parseVal (f + 1) ('n' :: 'u' :: 'l' :: 'l' :: r) = some (.null, r) := rfl

theorem parseVal_true (f : Nat) (r : List Char) :
    parseVal (f + 1) ('t' :: 'r' :: 'u' :: 'e' :: r) = some (.bool true, r) := rfl

theorem parseVal_false (f : Nat) (r : List Char) :
    parseVal (f + 1) ('f' :: 'a' :: 'l' :: 's' :: 'e' :: r) = some (.bool false, r) := rfl

theorem parseVal_quote (f : Nat) (rest : List Char) :
    parseVal (f + 1) ('"' :: rest) =
      (match parseStringBody rest with
      | none => none
      | some (s, r) => some (.str ⟨s⟩, r)) := rfl

theorem parseVal_arr (f : Nat) (c₂ : Char) (rest₂ : List Char) :
    parseVal (f + 1) ('[' :: c₂ :: rest₂) =
      (if c₂ = ']' then some (.arr .nil, rest₂)
      else
        match parseVal f (c₂ :: rest₂) with
        | none => none
        | some (v, r) =>
          match parseArrTail f r with
          | none => none
          | some (vs, r₂) => some (.arr (.cons v vs), r₂)) := rfl

theorem parseVal_obj (f : Nat) (c₂ : Char) (rest₂ : List Char) :
    parseVal (f + 1) ('\x7b' :: c₂ :: rest₂) =
      (if c₂ = '\x7d' then some (.obj .nil, rest₂)
      else
        match parsePair f (c₂ :: rest₂) with
        | none => none
        | some (k, v, r) =>
          match parseObjTail f r with
          | none => none
          | some (fs, r₂) => some (.obj (.cons k v fs), r₂)) := rfl

theorem parseVal_neg (f : Nat) (d : Char) (rest₂ : List Char) :
    parseVal (f + 1) ('-' :: d :: rest₂) =
      (if isDigitChar d then
        some (.num (-((takeDigits rest₂ (digitVal d)).1 : Int)),
          (takeDigits rest₂ (digitVal d)).2)
      else none) := rfl

theorem parseArrTail_succ_cons (f : Nat) (c : Char) (rest : List Char) :
    parseArrTail (f + 1) (c :: rest) =
      (if c = ']' then some (.nil, rest)
      else if c = ',' then
        match parseVal f rest with
        | none => none
        | some (v, r) =>
          match parseArrTail f r with
          | none => none
          | some (vs, r₂) => some (.cons v vs, r₂)
      else none) := rfl

theorem parsePair_quote (f : Nat) (rest : List Char) :
    parsePair (f + 1) ('"' :: rest) =
      (match parseStringBody rest with
      | none => none
      | some (k, r) =>
        match r with
        | ':' :: r₂ =>
          match parseVal f r₂ with
          | none => none
          | some (v, r₃) => some (⟨k⟩, v, r₃)
        | _ => none) := rfl

theorem parseObjTail_succ_cons (f : Nat) (c : Char) (rest : List Char) :
    parseObjTail (f + 1) (c :: rest) =
      (if c = '\x7d' then some (.nil, rest)
      else if c = ',' then
        match parsePair f rest with
        | none => none
        | some (k, v, r) =>
          match parseObjTail f r with
          | none => none
          | some (fs, r₂) => some (.cons k v fs, r₂)
      else none) := rfl

mutual

/-- Fuel needed by `parseVal` to consume the printed form of `v`
(an over-approximation: a sum instead of a maximum). -/
def Json.psize : Json → Nat
  | .null => 1
  | .bool _ => 1
  | .num _ => 1
  | .str _ => 1
  | .arr .nil => 1
  | .arr (.cons v vs) => 1 + Json.psize v + JsonArr.psize vs
  | .obj .nil => 1
  | .obj (.cons _ v fs) => 2 + Json.psize v + JsonObj.psize fs

/-- Fuel needed by `parseArrTail` on a printed array tail. -/
def JsonArr.psize : JsonArr → Nat
  | .nil => 1
  | .cons v vs => 1 + Json.psize v + JsonArr.psize vs

/-- Fuel needed by `parseObjTail` on a printed object tail. -/
def JsonObj.psize : JsonObj → Nat
  | .nil => 1
  | .cons _ v fs => 2 + Json.psize v + JsonObj.psize fs

end

theorem psize_null : Json.psize .null = 1 := rfl

theorem psize_bool (b : Bool) : Json.psize (.bool b) = 1 := rfl

theorem psize_num (n : Int) : Json.psize (.num n) = 1 := rfl

theorem psize_str (s : String) : Json.psize (.str s) = 1 := rfl

theorem psize_arrNil : Json.psize (.arr .nil) = 1 := rfl

theorem psize_arrCons (v : Json) (vs : JsonArr) :
    Json.psize (.arr (.cons v vs)) = 1 + Json.psize v + JsonArr.psize vs := rfl

theorem psize_objNil : Json.psize (.obj .nil) = 1 := rfl

theorem psize_objCons (k : String) (v : Json) (fs : JsonObj) :
    Json.psize (.obj (.cons k v fs)) = 2 + Json.psize v + JsonObj.psize fs := rfl

theorem psizeArr_nil : JsonArr.psize .nil = 1 := rfl

theorem psizeArr_cons (v : Json) (vs : JsonArr) :
    JsonArr.psize (.cons v vs) = 1 + Json.psize v + JsonArr.psize vs := rfl

theorem psizeObj_nil : JsonObj.psize .nil = 1 := rfl

theorem psizeObj_cons (k : String) (v : Json) (fs : JsonObj) :
    JsonObj.psize (.cons k v fs) = 2 + Json.psize v + JsonObj.psize fs := rfl

theorem psize_pos (v : Json) : 1 ≤ Json.psize v := by
  cases v with
  | null => rw [psize_null]
  | bool b => rw [psize_bool]
  | num n => rw [psize_num]
  | str s => rw [psize_str]
  | arr vs =>
    cases vs with
    | nil => rw [psize_arrNil]
    | cons v vs => rw [psize_arrCons]; omega
  | obj fs =>
    cases fs with
    | nil => rw [psize_objNil]
    | cons k v fs => rw [psize_objCons]; omega

theorem psizeArr_pos (vs : JsonArr) : 1 ≤ JsonArr.psize vs := by
  cases vs with
  | nil => rw [psizeArr_nil]
  | cons v vs => rw [psizeArr_cons]; omega

theorem psizeObj_pos (fs : JsonObj) : 1 ≤ JsonObj.psize fs := by
  cases fs with
  | nil => rw [psizeObj_nil]
  | cons k v fs => rw [psizeObj_cons]; omega

/-- Inside printed JSON, the characters following a printed number are
`,`, `]`, `\x7d`, or nothing: the array-tail context never starts with
a digit. -/
theorem noLeadDigit_arrTail (vs : JsonArr) (rest : List Char) :
    noLeadDigit (JsonArr.tailChars vs ++ ']' :: rest) = true := by
  cases vs with
  | nil => rw [tailChars_nil, List.nil_append, noLeadDigit_cons]; decide
  | cons v vs => rw [tailChars_cons, List.cons_append, noLeadDigit_cons]; decide

/-- The object-tail context never starts with a digit either. -/
theorem noLeadDigit_objTail (fs : JsonObj) (rest : List Char) :
    noLeadDigit (JsonObj.tailChars fs ++ '\x7d' :: rest) = true := by
  cases fs with
  | nil => rw [objTailChars_nil, List.nil_append, noLeadDigit_cons]; decide
  | cons k v fs => rw [objTailChars_cons, List.cons_append, noLeadDigit_cons]; decide

/-- The printed form of a value is nonempty and never starts with a
closing bracket. -/
theorem chars_head (v : Json) :
    ∃ c cs, Json.chars v = c :: cs ∧ c ≠ ']' ∧ c ≠ '\x7d' := by
  cases v with
  | null => exact ⟨'n', _, chars_null, by decide, by decide⟩
  | bool b =>
    cases b with
    | true => exact ⟨'t', _, chars_true, by decide, by decide⟩
    | false => exact ⟨'f', _, chars_false, by decide, by decide⟩
  | num n =>
    by_cases hn : n < 0
    · exact ⟨'-', _, by rw [chars_num, intChars, if_pos hn], by decide, by decide⟩
    · obtain ⟨d, tl, hd, he⟩ := natDigitsAux_head (Nat.lt_succ_self n.natAbs)
      refine ⟨digitChar d, tl, ?_,
        isDigitChar_ne (isDigitChar_digitChar hd) (by decide),
        isDigitChar_ne (isDigitChar_digitChar hd) (by decide)⟩
      rw [chars_num, intChars, if_neg hn, natDigits, he]
  | str s => exact ⟨'"', _, chars_str s, by decide, by decide⟩
  | arr vs =>
    cases vs with
    | nil => exact ⟨'[', _, chars_arrNil, by decide, by decide⟩
    | cons v vs => exact ⟨'[', _, chars_arrCons v vs, by decide, by decide⟩
  | obj fs =>
    cases fs with
    | nil => exact ⟨'\x7b', _, chars_objNil, by decide, by decide⟩
    | cons k v fs => exact ⟨'\x7b', _, chars_objCons k v fs, by decide, by decide⟩

mutual

/-- The parser consumes exactly the printed form of `v` and returns `v`,
leaving any non-digit-leading suffix untouched. -/
theorem parseVal_chars (v : Json) (f : Nat) (hf : Json.psize v ≤ f)
    (rest : List Char) (hrest : noLeadDigit rest = true) :
    parseVal f (Json.chars v ++ rest) = some (v, rest) := by
  match v with
  | .null =>
    cases f with
    | zero => rw [psize_null] at hf; omega
    | succ f =>
      rw [chars_null]
      simp only [List.cons_append, List.nil_append]
      exact parseVal_null f rest
  | .bool true =>
    cases f with
    | zero => rw [psize_bool] at hf; omega
    | succ f =>
      rw [chars_true]
      simp only [List.cons_append, List.nil_append]
      exact parseVal_true f rest
  | .bool false =>
    cases f with
    | zero => rw [psize_bool] at hf; omega
    | succ f =>
      rw [chars_false]
      simp only [List.cons_append, List.nil_append]
      exact parseVal_false f rest
  | .num n =>
    cases f with
    | zero => rw [psize_num] at hf; omega
    | succ f =>
      rw [chars_num, intChars]
      by_cases hn : n < 0
      · rw [if_pos hn]
        obtain ⟨d, tl, hd, he, hscan⟩ := natDigits_scan (n := n.natAbs) hrest
        rw [he]
        simp only [List.cons_append]
        rw [parseVal_neg, if_pos (isDigitChar_digitChar hd)]
        have h1 : (takeDigits (tl ++ rest) (digitVal (digitChar d))).1 = n.natAbs := by
          rw [hscan]
        have h2 : (takeDigits (tl ++ rest) (digitVal (digitChar d))).2 = rest := by
          rw [hscan]
        rw [h1, h2]
        have hval : -((n.natAbs : Nat) : Int) = n := by omega
        rw [hval]
      · rw [if_neg hn]
        obtain ⟨d, tl, hd, he, hscan⟩ := natDigits_scan (n := n.natAbs) hrest
        rw [he]
        simp only [List.cons_append]
        obtain ⟨ne1, ne2, ne3, ne4, ne5, ne6, ne7⟩ := digit_head_ne (isDigitChar_digitChar hd)
        rw [parseVal_succ_cons, if_neg ne1, if_neg ne2, if_neg ne3, if_neg ne4, if_neg ne5,
          if_neg ne6, if_neg ne7, if_pos (isDigitChar_digitChar hd)]
        have h1 : (takeDigits (tl ++ rest) (digitVal (digitChar d))).1 = n.natAbs := by
          rw [hscan]
        have h2 : (takeDigits (tl ++ rest) (digitVal (digitChar d))).2 = rest := by
          rw [hscan]
        rw [h1, h2]
        have hval : ((n.natAbs : Nat) : Int) = n := by omega
        rw [hval]
  | .str s =>
    cases f with
    | zero => rw [psize_str] at hf; omega
    | succ f =>
      rw [chars_str, quoteChars]
      simp only [List.cons_append, List.append_assoc, List.singleton_append, List.nil_append]
      rw [parseVal_quote, parseStringBody_escape]
  | .arr .nil =>
    cases f with
    | zero => rw [psize_arrNil] at hf; omega
    | succ f =>
      rw [chars_arrNil]
      simp only [List.cons_append, List.nil_append]
      rw [parseVal_arr, if_pos rfl]
  | .arr (.cons v vs) =>
    cases f with
    | zero =>
      rw [psize_arrCons] at hf
      omega
    | succ f =>
      rw [psize_arrCons] at hf
      rw [chars_arrCons]
      simp only [List.cons_append, List.append_assoc, List.singleton_append, List.nil_append]
      obtain ⟨c₂, cs, hcc, hne, _⟩ := chars_head v
      have hIH := parseVal_chars v f (by omega)
        (JsonArr.tailChars vs ++ ']' :: rest) (noLeadDigit_arrTail vs rest)
      have hIH2 := parseArrTail_chars vs f (by omega) rest
      rw [hcc] at hIH ⊢
      rw [List.cons_append] at hIH ⊢
      rw [parseVal_arr, if_neg hne, hIH]
      simp [hIH2]
  | .obj .nil =>
    cases f with
    | zero => rw [psize_objNil] at hf; omega
    | succ f =>
      rw [chars_objNil]
      simp only [List.cons_append, List.nil_append]
      rw [parseVal_obj, if_pos rfl]
  | .obj (.cons k v fs) =>
    cases f with
    | zero =>
      rw [psize_objCons] at hf
      omega
    | succ f =>
      rw [psize_objCons] at hf
      rw [chars_objCons]
      simp only [List.cons_append, List.append_assoc, List.singleton_append, List.nil_append]
      have hPair := parsePair_chars k v f (by omega)
        (JsonObj.tailChars fs ++ '\x7d' :: rest) (noLeadDigit_objTail fs rest)
      have hTail := parseObjTail_chars fs f (by omega) rest
      rw [quoteChars] at hPair ⊢
      simp only [List.cons_append, List.append_assoc, List.singleton_append, List.nil_append] at hPair ⊢
      rw [parseVal_obj, if_neg (by decide), hPair]
      simp [hTail]
termination_by Json.psize v * 2
decreasing_by
  all_goals try simp only [psize_arrCons, psize_objCons, psizeArr_cons, psizeObj_cons]
  all_goals omega

/-- The array-tail parser consumes `",v1,v2,...]"` and returns the
elements. -/
theorem parseArrTail_chars (vs : JsonArr) (f : Nat) (hf : JsonArr.psize vs ≤ f)
    (rest : List Char) :
    parseArrTail f (JsonArr.tailChars vs ++ ']' :: rest) = some (vs, rest) := by
  match vs with
  | .nil =>
    cases f with
    | zero => rw [psizeArr_nil] at hf; omega
    | succ f =>
      rw [tailChars_nil, List.nil_append, parseArrTail_succ_cons, if_pos rfl]
  | .cons v vs =>
    cases f with
    | zero =>
      rw [psizeArr_cons] at hf
      omega
    | succ f =>
      rw [psizeArr_cons] at hf
      rw [tailChars_cons]
      simp only [List.cons_append, List.append_assoc, List.singleton_append, List.nil_append]
      have hIH := parseVal_chars v f (by omega)
        (JsonArr.tailChars vs ++ ']' :: rest) (noLeadDigit_arrTail vs rest)
      have hIH2 := parseArrTail_chars vs f (by omega) rest
      rw [parseArrTail_succ_cons, if_neg (by decide), if_pos rfl, hIH]
      simp [hIH2]
termination_by JsonArr.psize vs * 2
decreasing_by
  all_goals try simp only [psize_arrCons, psize_objCons, psizeArr_cons, psizeObj_cons]
  all_goals omega

/-- The pair parser consumes `"\"key\":value"` and returns the pair. -/
theorem parsePair_chars (k : String) (v : Json) (f : Nat) (hf : 1 + Json.psize v ≤ f)
    (rest : List Char) (hrest : noLeadDigit rest = true) :
    parsePair f (quoteChars k ++ ':' :: (Json.chars v ++ rest)) = some (k, v, rest) := by
  cases f with
  | zero => omega
  | succ f =>
    rw [quoteChars]
    simp only [List.cons_append, List.append_assoc, List.singleton_append, List.nil_append]
    have hIH := parseVal_chars v f (by omega) rest hrest
    rw [parsePair_quote, parseStringBody_escape]
    simp [hIH]
termination_by Json.psize v * 2 + 1
decreasing_by
  all_goals omega

/-- The object-tail parser consumes `",\"k\":v,...\x7d"` and returns the
fields. -/
theorem parseObjTail_chars (fs : JsonObj) (f : Nat) (hf : JsonObj.psize fs ≤ f)
    (rest : List Char) :
    parseObjTail f (JsonObj.tailChars fs ++ '\x7d' :: rest) = some (fs, rest) := by
  match fs with
  | .nil =>
    cases f with
    | zero => rw [psizeObj_nil] at hf; omega
    | succ f =>
      rw [objTailChars_nil, List.nil_append, parseObjTail_succ_cons, if_pos rfl]
  | .cons k v fs =>
    cases f with
    | zero =>
      rw [psizeObj_cons] at hf
      omega
    | succ f =>
      rw [psizeObj_cons] at hf
      rw [objTailChars_cons]
      simp only [List.cons_append, List.append_assoc, List.singleton_append, List.nil_append]
      have hPair := parsePair_chars k v f (by omega)
        (JsonObj.tailChars fs ++ '\x7d' :: rest) (noLeadDigit_objTail fs rest)
      have hTail := parseObjTail_chars fs f (by omega) rest
      rw [parseObjTail_succ_cons, if_neg (by decide), if_pos rfl, hPair]
      simp [hTail]
termination_by JsonObj.psize fs * 2
decreasing_by
  all_goals try simp only [psize_arrCons, psize_objCons, psizeArr_cons, psizeObj_cons]
  all_goals omega

end

mutual

/-- The parser fuel bound is dominated by the printed length. -/
theorem psize_le_chars (v : Json) : Json.psize v ≤ (Json.chars v).length := by
  match v with
  | .null => rw [psize_null, chars_null]; simp
  | .bool true => rw [psize_bool, chars_true]; simp
  | .bool false => rw [psize_bool, chars_false]; simp
  | .num n =>
    rw [psize_num, chars_num, intChars]
    obtain ⟨d, tl, hd, he⟩ := natDigitsAux_head (Nat.lt_succ_self n.natAbs)
    by_cases hn : n < 0
    · rw [if_pos hn]; simp
    · rw [if_neg hn, natDigits, he]; simp
  | .str s => rw [psize_str, chars_str, quoteChars]; simp
  | .arr .nil => rw [psize_arrNil, chars_arrNil]; simp
  | .arr (.cons v vs) =>
    rw [psize_arrCons, chars_arrCons]
    have h1 := psize_le_chars v
    have h2 := psizeArr_le_tailChars vs
    simp only [List.length_cons, List.length_append, List.length_singleton]
    omega
  | .obj .nil => rw [psize_objNil, chars_objNil]; simp
  | .obj (.cons k v fs) =>
    rw [psize_objCons, chars_objCons]
    have h1 := psize_le_chars v
    have h2 := psizeObj_le_tailChars fs
    simp only [List.length_cons, List.length_append, List.length_singleton]
    omega

/-- Array tails: fuel bound dominated by printed length plus one. -/
theorem psizeArr_le_tailChars (vs : JsonArr) :
    JsonArr.psize vs ≤ (JsonArr.tailChars vs).length + 1 := by
  match vs with
  | .nil => rw [psizeArr_nil, tailChars_nil]; simp
  | .cons v vs =>
    rw [psizeArr_cons, tailChars_cons]
    have h1 := psize_le_chars v
    have h2 := psizeArr_le_tailChars vs
    simp only [List.length_cons, List.length_append]
    omega

/-- Object tails: fuel bound dominated by printed length plus one. -/
theorem psizeObj_le_tailChars (fs : JsonObj) :
    JsonObj.psize fs ≤ (JsonObj.tailChars fs).length + 1 := by
  match fs with
  | .nil => rw [psizeObj_nil, objTailChars_nil]; simp
  | .cons k v fs =>
    rw [psizeObj_cons, objTailChars_cons]
    have h1 := psize_le_chars v
    have h2 := psizeObj_le_tailChars fs
    simp only [List.length_cons, List.length_append]
    omega

end

/-- Round trip: `JSON.parse` applied to `JSON.stringify` output recovers the payload:
the serialize/deserialize round trip over the JSON value model. -/
theorem jsonParse_stringify (v : Json) : jsonParse (jsonStringify v) = some v := by
  show (match parseVal ((Json.chars v).length + 1) (Json.chars v) with
    | some (v, []) => some v
    | _ => none) = some v
  have h := parseVal_chars v ((Json.chars v).length + 1)
    (by have := psize_le_chars v; omega) [] noLeadDigit_nil
  rw [List.append_nil] at h
  rw [h]

/- ### Connection Manager: `retryKafkaConnection` (kafka.ts, lines 46-70) -/

/-- A JavaScript error as inspected by the retry loop's `catch`:
whether it is an `instanceof KafkaJSNonRetriableError`, plus its `name`
and `message` fields. -/
structure ConnError where
  isKafkaJSNonRetriableError : Bool
  name : String
  message : String
deriving DecidableEq

/-- The classification test in the `catch` block: the error is treated as
transient iff `e instanceof KafkaJSNonRetriableError && e.name ===
"KafkaJSNumberOfRetriesExceeded"`. -/
def isTransient (e : ConnError) : Bool :=
  e.isKafkaJSNonRetriableError && e.name == "KafkaJSNumberOfRetriesExceeded"

/-- Outcome of one `kafkaObj.connect()` call. -/
inductive ConnectAttempt where
  | ok : ConnectAttempt
  | err : ConnError → ConnectAttempt
deriving DecidableEq

/-- The two loop flags (`connectorConnected` starts `undefined`, which is
falsy, and `connectorKafkaFatalError` starts `false`). -/
structure RetryState where
  connectorConnected : Bool
  connectorKafkaFatalError : Bool
deriving DecidableEq

/-- The `while (!connectorConnected && !connectorKafkaFatalError)` loop of
`retryKafkaConnection`, driven by the script of successive `connect()`
outcomes.  `none` means the script ran out while the loop would still
continue; otherwise the loop exits and the function completes normally
(`Except.ok` — every raised error lands in its `catch`, so there is no
uncaught-exception path) with the final flags. -/
def retryLoop : List ConnectAttempt → RetryState → Option (Except ConnError RetryState)
  | [], s =>
    if s.connectorConnected || s.connectorKafkaFatalError then some (.ok s) else none
  | a :: rest, s =>
    if s.connectorConnected || s.connectorKafkaFatalError then some (.ok s)
    else
      match a with
      | .ok => retryLoop rest { s with connectorConnected := true }
      | .err e =>
        if isTransient e then
          retryLoop rest s
        else
          retryLoop rest { s with connectorKafkaFatalError := true }

/-- Function `retryKafkaConnection(kafkaObj)`: run the loop from the initial flag
state. -/
def retryKafkaConnection (attempts : List ConnectAttempt) :
    Option (Except ConnError RetryState) :=
  retryLoop attempts ⟨false, false⟩

/- ### Module state and `shutdownKafka` (kafka.ts, lines 11-12, 72-75) -/

/-- The producer handle (`kafka.producer()`); it records the client id the
`Kafka` instance was built with. -/
structure ProducerHandle where
  clientId : Option String
deriving DecidableEq

/-- The consumer handle (`kafka.consumer({ groupId })`). -/
structure ConsumerHandle where
  groupId : String
deriving DecidableEq

/-- The module-level `let producer` / `let consumer` bindings; `none`
models the `undefined` they hold before `initKafka` assigns them. -/
structure KafkaModuleState where
  producer : Option ProducerHandle
  consumer : Option ConsumerHandle
deriving DecidableEq

/-- A runtime exception of the JavaScript engine. -/
inductive JsRuntimeError where
  | typeError (message : String) : JsRuntimeError
deriving DecidableEq

/-- Function `shutdownKafka()`: `await producer.disconnect(); await
consumer.disconnect();` — a member call on an `undefined` binding throws a
`TypeError`.  On success, returns the ordered log of disconnect calls. -/
def shutdownKafka (st : KafkaModuleState) : Except JsRuntimeError (List String) :=
  match st.producer with
  | none => .error (.typeError "producer is undefined")
  | some _ =>
    match st.consumer with
    | none => .error (.typeError "consumer is undefined")
    | some _ => .ok ["producer.disconnect", "consumer.disconnect"]

/- ### `initKafka` (kafka.ts, lines 20-44) -/

/-- The `KafkaConfig` fields `initKafka` reads (`clientId` is optional in
kafkajs). -/
structure KafkaConfig where
  clientId : Option String
  brokers : List String
deriving DecidableEq

/-- What a completed `initKafka` run has produced. -/
structure InitKafkaResult where
  state : KafkaModuleState
  subscribedTopics : List String
  fromBeginning : Bool
  producerReturn : ProducerHandle
deriving DecidableEq

/-- Function `initKafka(config, topics, callback)`: builds the client, assigns the
module producer, assigns the module consumer with `groupId:
config.clientId ?? "default-consumer-group"`, retries both connections
(scripted outcomes), subscribes to `topics` with `fromBeginning: true`,
starts the dispatch loop, and returns the producer.  `none` when a
connect script is exhausted (the retry loop still spinning). -/
def initKafka (config : KafkaConfig) (topics : List String)
    (producerAttempts consumerAttempts : List ConnectAttempt) :
    Option InitKafkaResult :=
  let producer : ProducerHandle := ⟨config.clientId⟩
  let consumer : ConsumerHandle := ⟨config.clientId.getD "default-consumer-group"⟩
  match retryKafkaConnection producerAttempts with
  | none => none
  | some _ =>
    match retryKafkaConnection consumerAttempts with
    | none => none
    | some _ =>
      some { state := ⟨some producer, some consumer⟩
             subscribedTopics := topics
             fromBeginning := true
             producerReturn := producer }

/- ### Subscriber callback and cache (index.ts, lines 40-62) -/

/-- The slice of a kafkajs `KafkaMessage` the callback reads:
`message.value` is a buffer or `null` (`Option String`; `toString` is the
identity in the model). -/
structure KafkaMessage where
  value : Option String
deriving DecidableEq

/-- Model of the `node-cache` instance `registerKafka` closes over: the
per-topic stored values plus the ordered log of emitted topic events. -/
structure NodeCache where
  entries : String → Option Json
  emitted : List String

/-- Method `cache.set(topic, v)`. -/
def NodeCache.set (cache : NodeCache) (topic : String) (v : Json) : NodeCache :=
  { cache with entries := fun t => if t = topic then some v else cache.entries t }

/-- Method `cache.emit(topic)`. -/
def NodeCache.emit (cache : NodeCache) (topic : String) : NodeCache :=
  { cache with emitted := cache.emitted ++ [topic] }

/-- The exception `JSON.parse` throws on malformed input. -/
inductive JsError where
  | syntaxError : JsError
deriving DecidableEq

/-- The `try` block of `kafkaCallback`: take `message.value ?? ""`, parse
it (`JSON.parse` throws `SyntaxError` on malformed input), then
`cache.set(topic, parsed)` and `cache.emit(topic)`. -/
def kafkaCallbackTry (cache : NodeCache) (topic : String) (message : KafkaMessage) :
    Except JsError NodeCache :=
  match jsonParse (message.value.getD "") with
  | none => .error .syntaxError
  | some v => .ok ((cache.set topic v).emit topic)

/-- Function `kafkaCallback` (the dispatch callback `registerKafka` installs): the
`try/catch` wrapper around the block above; on a parse failure the error
is logged (`console.error("Invalid Kafka message")`) and swallowed, the
cache left untouched.  The result is `Except`-valued so that "no exception
escapes the dispatch path" is a provable statement, not a typing
artifact. -/
def kafkaCallback (cache : NodeCache) (topic : String) (message : KafkaMessage) :
    Except JsError NodeCache :=
  match kafkaCallbackTry cache topic message with
  | .ok c => .ok c
  | .error _ => .ok cache

/- ### First-variant `KafkaPublisher` (index.ts, lines 7-38) -/

/-- The error taxonomy the spec prescribes for `publish`; the embedding
keeps it so that "fails with `PublishError`" is statable. -/
inductive PublishError where
  | notConnected : PublishError
  | brokerRejected (reason : String) : PublishError
deriving DecidableEq

/-- A record handed to `producer.send`. -/
structure ProducerRecord where
  topic : String
  value : String
deriving DecidableEq

/-- First-variant `KafkaPublisher`: `this.producer` is `undefined` until
the `registerKafka(...).then(...)` continuation runs. -/
structure KafkaPublisher where
  producer : Option ProducerHandle
deriving DecidableEq

/-- Method `publish(name, data)` (first variant): `await this.producer?.send({
topic: name, messages: [{ value: JSON.stringify(data) }] })`.  With
`this.producer` still `undefined`, the optional chaining evaluates to
`undefined`, the `await` resolves, and nothing is sent.  The result pairs
the (absent or present) record handed to `send`. -/
def KafkaPublisher.publish (self : KafkaPublisher) (name : String) (data : Json) :
    Except PublishError (Option ProducerRecord) :=
  match self.producer with
  | none => .ok none
  | some _ => .ok (some ⟨name, jsonStringify data⟩)

/- ### Topic provisioner and second-variant publisher (index.ts,
lines 63-150) -/

/-- A kafkajs `ITopicConfig`. -/
structure ITopicConfig where
  topic : String
  numPartitions : Nat
  replicationFactor : Nat
deriving DecidableEq

/-- Topic-provisioning failures other than "already exists". -/
inductive ProvisioningError where
  | invalidReplicationFactor (topic : String) : ProvisioningError
deriving DecidableEq

/-- Modelled from the spec: the broker side of `admin.createTopics` lives
in the external kafkajs library, not under src/.  Following the spec
("Fails silently if topics already exist — broker-specific already-exists
responses are treated as success, not error; any other provisioning error
is surfaced"), the broker holds the set of existing topics and a cluster
size; re-creating an existing topic succeeds silently, creating a fresh
topic with a replication factor exceeding the cluster size fails. -/
structure BrokerState where
  existing : List String
  brokerCount : Nat
deriving DecidableEq

/-- One topic-creation request against the broker. -/
def createTopic (b : BrokerState) (r : ITopicConfig) :
    Except ProvisioningError BrokerState :=
  if r.topic ∈ b.existing then .ok b
  else if b.brokerCount < r.replicationFactor then
    .error (.invalidReplicationFactor r.topic)
  else .ok { b with existing := b.existing ++ [r.topic] }

/-- Method `admin.createTopics({ topics })`: each requested topic in order; the
first failure propagates as an exception. -/
def createTopics (b : BrokerState) : List ITopicConfig → Except ProvisioningError BrokerState
  | [] => .ok b
  | r :: rs =>
    match createTopic b r with
    | .error e => .error e
    | .ok b₂ => createTopics b₂ rs

/-- Function `registerKafka(topics, kafka)` (second variant, lines 138-150):
connect an admin client, request creation of every topic with
`numPartitions: 3, replicationFactor: 3`, disconnect.  A provisioning
exception propagates to the caller. -/
def registerKafka (topics : List String) (b : BrokerState) :
    Except ProvisioningError BrokerState :=
  createTopics b (topics.map fun topic => ITopicConfig.mk topic 3 3)

/-- The `PublisherConfig` fields `create` reads. -/
structure PublisherConfig where
  client : String
  topic : String
deriving DecidableEq

/-- Second-variant `KafkaPublisher`: bound to exactly one topic, producer
connected during `create`. -/
structure BoundKafkaPublisher where
  topic : String
  producerConnected : Bool
deriving DecidableEq

/-- The broker interactions `create` performs, in order. -/
inductive CreateStep where
  | producerConnect : CreateStep
  | provisionTopics (topics : List String) : CreateStep
deriving DecidableEq

/-- Why `create` rejected. -/
inductive CreateError where
  | connectFailed (e : ConnError) : CreateError
  | provisioningFailed (e : ProvisioningError) : CreateError
deriving DecidableEq

/-- Static method `KafkaPublisher.create(config)` (second variant, lines 77-88): builds
the client, `await producer.connect()` — one bare attempt, not the retry
loop of kafka.ts — then `await registerKafka([config.topic], kafka)`, then
returns a publisher bound to `config.topic`.  The outcome of the single
connect attempt is an input; a failing step throws and skips the rest.
The returned trace records the order of the broker interactions. -/
def BoundKafkaPublisher.create (config : PublisherConfig)
    (connectOutcome : Except ConnError Unit) (b : BrokerState) :
    Except CreateError (BoundKafkaPublisher × BrokerState) × List CreateStep :=
  match connectOutcome with
  | .error e => (.error (.connectFailed e), [CreateStep.producerConnect])
  | .ok _ =>
    match registerKafka [config.topic] b with
    | .error pe =>
      (.error (.provisioningFailed pe),
        [CreateStep.producerConnect, CreateStep.provisionTopics [config.topic]])
    | .ok b₂ =>
      (.ok (⟨config.topic, true⟩, b₂),
        [CreateStep.producerConnect, CreateStep.provisionTopics [config.topic]])

/-- Method `publish(data)` (second variant, lines 90-95): sends
`JSON.stringify(data)` to the bound topic. -/
def BoundKafkaPublisher.publish (self : BoundKafkaPublisher) (data : Json) :
    ProducerRecord :=
  ⟨self.topic, jsonStringify data⟩

/- ### Behaviour of the retry loop -/

theorem retryKafkaConnection_eq (attempts : List ConnectAttempt) :
    retryKafkaConnection attempts = retryLoop attempts ⟨false, false⟩ := rfl

theorem retryLoop_nil (s : RetryState) :
    retryLoop [] s =
      (if s.connectorConnected || s.connectorKafkaFatalError then some (.ok s)
       else none) := rfl

theorem retryLoop_cons (a : ConnectAttempt) (rest : List ConnectAttempt) (s : RetryState) :
    retryLoop (a :: rest) s =
      (if s.connectorConnected || s.connectorKafkaFatalError then some (.ok s)
       else
        match a with
        | .ok => retryLoop rest { s with connectorConnected := true }
        | .err e =>
          if isTransient e then
            retryLoop rest s
          else
            retryLoop rest { s with connectorKafkaFatalError := true }) := rfl

theorem retryLoop_connected (attempts : List ConnectAttempt) :
    retryLoop attempts ⟨true, false⟩ = some (.ok ⟨true, false⟩) := by
  cases attempts with
  | nil => rw [retryLoop_nil]; rfl
  | cons a rest => rw [retryLoop_cons]; rfl

theorem retryLoop_fatal (attempts : List ConnectAttempt) :
    retryLoop attempts ⟨false, true⟩ = some (.ok ⟨false, true⟩) := by
  cases attempts with
  | nil => rw [retryLoop_nil]; rfl
  | cons a rest => rw [retryLoop_cons]; rfl

theorem retryLoop_start_nil : retryLoop [] ⟨false, false⟩ = none := rfl

theorem retryLoop_start_ok (rest : List ConnectAttempt) :
    retryLoop (ConnectAttempt.ok :: rest) ⟨false, false⟩ =
      retryLoop rest ⟨true, false⟩ := rfl

theorem retryLoop_start_err (e : ConnError) (rest : List ConnectAttempt) :
    retryLoop (ConnectAttempt.err e :: rest) ⟨false, false⟩ =
      (if isTransient e then retryLoop rest ⟨false, false⟩
       else retryLoop rest ⟨false, true⟩) := rfl

/-- C1 (counterexample): a first connect attempt failing with a
non-transient error (`instanceof KafkaJSNonRetriableError` false) makes
`retryKafkaConnection` stop — but it completes NORMALLY (`Except.ok`),
with only its internal fatal flag set; it does not reject, so the error
is not propagated to the caller, contrary to the claim. -/
theorem C1_fatal_returns_normally :
    retryKafkaConnection
        [ConnectAttempt.err ⟨false, "TypeError", "bad config"⟩] =
      some (Except.ok ⟨false, true⟩) ∧
    ∀ e : ConnError,
      retryKafkaConnection
          [ConnectAttempt.err ⟨false, "TypeError", "bad config"⟩] ≠
        some (Except.error e) := by
  refine ⟨rfl, ?_⟩
  intro e h
  rw [show retryKafkaConnection
      [ConnectAttempt.err ⟨false, "TypeError", "bad config"⟩] =
    some (Except.ok ⟨false, true⟩) from rfl] at h
  simp at h

/-- C1 (amended): if the first connect attempt raises a non-transient
error, the loop stops after that first attempt — no later scripted
outcome is ever consumed — and `retryKafkaConnection` returns normally
with the fatal flag set, swallowing the error (it is only logged); no
rejection reaches the caller. -/
theorem C1_fatal_short_circuit (e : ConnError) (rest : List ConnectAttempt)
    (h : isTransient e = false) :
    retryKafkaConnection (ConnectAttempt.err e :: rest) =
      some (Except.ok ⟨false, true⟩) := by
  rw [retryKafkaConnection_eq, retryLoop_start_err, if_neg (by simp [h]),
    retryLoop_fatal]

/-- C1 (witness): the amended theorem applied at a concrete fatal error
with a non-empty tail of scripted outcomes. -/
theorem C1_fatal_short_circuit_witness :
    isTransient ⟨false, "TypeError", "bad config"⟩ = false ∧
    retryKafkaConnection
        [ConnectAttempt.err ⟨false, "TypeError", "bad config"⟩, ConnectAttempt.ok] =
      some (Except.ok ⟨false, true⟩) :=
  ⟨by decide, C1_fatal_short_circuit ⟨false, "TypeError", "bad config"⟩
    [ConnectAttempt.ok] (by decide)⟩

/-- C7: if the first `N` connect attempts fail with the transient
classification (`KafkaJSNonRetriableError` named
`KafkaJSNumberOfRetriesExceeded`) and the `(N+1)`-th succeeds, the loop
terminates connected, with no error surfaced, for every finite `N`. -/
theorem C7_transient_retries_until_success (N : Nat) (e : ConnError)
    (h : isTransient e = true) :
    retryKafkaConnection
        (List.replicate N (ConnectAttempt.err e) ++ [ConnectAttempt.ok]) =
      some (Except.ok ⟨true, false⟩) := by
  rw [retryKafkaConnection_eq]
  induction N with
  | zero =>
    rw [List.replicate_zero, List.nil_append, retryLoop_start_ok, retryLoop_connected]
  | succ n ih =>
    rw [List.replicate_succ, List.cons_append, retryLoop_start_err, if_pos h]
    exact ih

/-- C7 (witness): three transient failures then success, at the concrete
error kafkajs raises when its internal retry budget is exhausted. -/
theorem C7_transient_retries_until_success_witness :
    isTransient ⟨true, "KafkaJSNumberOfRetriesExceeded", "broker down"⟩ = true ∧
    retryKafkaConnection
        (List.replicate 3
            (ConnectAttempt.err ⟨true, "KafkaJSNumberOfRetriesExceeded", "broker down"⟩) ++
          [ConnectAttempt.ok]) =
      some (Except.ok ⟨true, false⟩) :=
  ⟨by decide, C7_transient_retries_until_success 3
    ⟨true, "KafkaJSNumberOfRetriesExceeded", "broker down"⟩ (by decide)⟩

/- ### Claims about shutdown and publish -/

/-- C3 (counterexample): calling `shutdownKafka` when `initKafka` never
ran (both module bindings still `undefined`) raises a `TypeError` —
`producer.disconnect()` on `undefined` — rather than completing without
error. -/
theorem C3_shutdown_throws_when_never_created :
    shutdownKafka ⟨none, none⟩ =
      .error (.typeError "producer is undefined") ∧
    ∀ log : List String, shutdownKafka ⟨none, none⟩ ≠ .ok log := by
  refine ⟨rfl, ?_⟩
  intro log h
  rw [show shutdownKafka ⟨none, none⟩ =
    .error (.typeError "producer is undefined") from rfl] at h
  simp at h

/-- C3 (amended): `shutdownKafka` completes without error exactly when
both module handles have been created; an absent producer or consumer
handle makes it throw a `TypeError` instead of being tolerated. -/
theorem C3_shutdown_requires_both_handles (st : KafkaModuleState) :
    (∃ log, shutdownKafka st = .ok log) ↔
      st.producer.isSome ∧ st.consumer.isSome := by
  rcases st with ⟨p, c⟩
  cases p with
  | none =>
    simp [shutdownKafka]
  | some ph =>
    cases c with
    | none => simp [shutdownKafka]
    | some ch => simp [shutdownKafka]

/-- C2 (counterexample): with the producer not yet established
(`this.producer` still `undefined`), `publish` resolves successfully and
sends nothing — it does not fail with a `PublishError`. -/
theorem C2_publish_before_connect_is_noop :
    KafkaPublisher.publish ⟨none⟩ "topic" (Json.num 1) = .ok none ∧
    ∀ e : PublishError,
      KafkaPublisher.publish ⟨none⟩ "topic" (Json.num 1) ≠ .error e := by
  refine ⟨rfl, ?_⟩
  intro e h
  rw [show KafkaPublisher.publish ⟨none⟩ "topic" (Json.num 1) = .ok none from rfl] at h
  simp at h

/-- C2 (amended): for every payload, calling `publish` before the
producer connection has been established resolves successfully as a
silent no-op — the optional chaining skips the send entirely — rather
than surfacing a `PublishError` (or anything else) to the caller. -/
theorem C2_publish_before_connect (name : String) (data : Json) :
    KafkaPublisher.publish ⟨none⟩ name data = .ok none := rfl

/- ### Claims about the dispatch path and the cache -/

/-- C5: dispatching a malformed (non-JSON-parseable) message and then a
well-formed one on the same topic leaves the cache holding the
well-formed message's decoded value; neither dispatch lets an exception
escape (both return `Except.ok`), and the malformed dispatch leaves every
cache entry untouched. -/
theorem C5_malformed_message_isolation (cache : NodeCache) (topic : String)
    (m₁ m₂ : KafkaMessage) (v₂ : Json)
    (h₁ : jsonParse (m₁.value.getD "") = none)
    (h₂ : jsonParse (m₂.value.getD "") = some v₂) :
    ∃ c₁ c₂, kafkaCallback cache topic m₁ = .ok c₁ ∧
      c₁.entries = cache.entries ∧
      kafkaCallback c₁ topic m₂ = .ok c₂ ∧
      c₂.entries topic = some v₂ := by
  refine ⟨cache, (cache.set topic v₂).emit topic, ?_, rfl, ?_, ?_⟩
  · rw [kafkaCallback, kafkaCallbackTry, h₁]
  · rw [kafkaCallback, kafkaCallbackTry, h₂]
  · show (if topic = topic then some v₂ else cache.entries topic) = some v₂
    rw [if_pos rfl]

/-- C5 (witness): a malformed then a well-formed message on topic `"t"`
over the empty cache. -/
theorem C5_malformed_message_isolation_witness :
    jsonParse ((some "nope").getD "") = none ∧
    jsonParse ((some "7").getD "") = some (Json.num 7) ∧
    (∃ c₁ c₂,
      kafkaCallback ⟨fun _ => none, []⟩ "t" ⟨some "nope"⟩ = .ok c₁ ∧
      c₁.entries = (⟨fun _ => none, []⟩ : NodeCache).entries ∧
      kafkaCallback c₁ "t" ⟨some "7"⟩ = .ok c₂ ∧
      c₂.entries "t" = some (Json.num 7)) :=
  ⟨rfl, rfl, C5_malformed_message_isolation ⟨fun _ => none, []⟩ "t"
    ⟨some "nope"⟩ ⟨some "7"⟩ (Json.num 7) rfl rfl⟩

/-- C6: dispatching two well-formed messages `m₁` then `m₂` on topic `T`
leaves the cache entry for `T` holding exactly the decoded value of `m₂`
(the last value overwrites), and entries for every other topic unchanged. -/
theorem C6_cache_overwrite (cache : NodeCache) (topic : String)
    (m₁ m₂ : KafkaMessage) (v₁ v₂ : Json)
    (h₁ : jsonParse (m₁.value.getD "") = some v₁)
    (h₂ : jsonParse (m₂.value.getD "") = some v₂) :
    ∃ c₁ c₂, kafkaCallback cache topic m₁ = .ok c₁ ∧
      kafkaCallback c₁ topic m₂ = .ok c₂ ∧
      c₂.entries topic = some v₂ ∧
      ∀ t, t ≠ topic → c₂.entries t = cache.entries t := by
  refine ⟨(cache.set topic v₁).emit topic,
    (((cache.set topic v₁).emit topic).set topic v₂).emit topic, ?_, ?_, ?_, ?_⟩
  · rw [kafkaCallback, kafkaCallbackTry, h₁]
  · rw [kafkaCallback, kafkaCallbackTry, h₂]
  · show (if topic = topic then some v₂ else _) = some v₂
    rw [if_pos rfl]
  · intro t ht
    show (if t = topic then some v₂ else if t = topic then some v₁ else cache.entries t) =
      cache.entries t
    rw [if_neg ht, if_neg ht]

/-- C6 (witness): `1` then `2` on topic `"t"`, with `"u"` untouched. -/
theorem C6_cache_overwrite_witness :
    jsonParse ((some "1").getD "") = some (Json.num 1) ∧
    jsonParse ((some "2").getD "") = some (Json.num 2) ∧
    (∃ c₁ c₂,
      kafkaCallback ⟨fun _ => none, []⟩ "t" ⟨some "1"⟩ = .ok c₁ ∧
      kafkaCallback c₁ "t" ⟨some "2"⟩ = .ok c₂ ∧
      c₂.entries "t" = some (Json.num 2) ∧
      ∀ t, t ≠ "t" → c₂.entries t = (⟨fun _ => none, []⟩ : NodeCache).entries t) :=
  ⟨rfl, rfl, C6_cache_overwrite ⟨fun _ => none, []⟩ "t" ⟨some "1"⟩ ⟨some "2"⟩
    (Json.num 1) (Json.num 2) rfl rfl⟩

/-- Dispatching a message whose value parses to `v` sets and emits. -/
theorem kafkaCallback_parse_ok {cache : NodeCache} {topic : String}
    {message : KafkaMessage} {v : Json}
    (h : jsonParse (message.value.getD "") = some v) :
    kafkaCallback cache topic message = .ok ((cache.set topic v).emit topic) := by
  rw [kafkaCallback, kafkaCallbackTry, h]

/-- C4: serialize/deserialize round trip through the broker: `publish`
serializes the payload with `JSON.stringify`; dispatching the resulting
record's value on the subscriber side decodes it with `JSON.parse` and
caches a value equal to the original payload, for every
JSON-representable payload. -/
theorem C4_publish_roundtrip (pub : BoundKafkaPublisher) (payload : Json)
    (cache : NodeCache) :
    ∃ c, kafkaCallback cache (pub.publish payload).topic
        ⟨some (pub.publish payload).value⟩ = .ok c ∧
      c.entries (pub.publish payload).topic = some payload := by
  refine ⟨(cache.set pub.topic payload).emit pub.topic, ?_, ?_⟩
  · exact kafkaCallback_parse_ok (jsonParse_stringify payload)
  · show (if pub.topic = pub.topic then some payload else cache.entries pub.topic) =
      some payload
    rw [if_pos rfl]

/- ### Claims about provisioning and publisher creation -/

theorem createTopics_nil (b : BrokerState) : createTopics b [] = .ok b := rfl

theorem createTopics_cons (b : BrokerState) (r : ITopicConfig) (rs : List ITopicConfig) :
    createTopics b (r :: rs) =
      (match createTopic b r with
      | .error e => .error e
      | .ok b₂ => createTopics b₂ rs) := rfl

/-- A successful provisioning run leaves every requested topic existing
and preserves the previously existing ones. -/
theorem createTopics_preserves {b b₂ : BrokerState} {rs : List ITopicConfig}
    (h : createTopics b rs = .ok b₂) :
    (∀ r ∈ rs, r.topic ∈ b₂.existing) ∧ ∀ t ∈ b.existing, t ∈ b₂.existing := by
  induction rs generalizing b with
  | nil =>
    rw [createTopics_nil] at h
    cases h
    exact ⟨by simp, fun t ht => ht⟩
  | cons r rs ih =>
    rw [createTopics_cons] at h
    cases hct : createTopic b r with
    | error e =>
      simp only [hct] at h
      cases h
    | ok b₁ =>
      simp only [hct] at h
      obtain ⟨h1, h2⟩ := ih h
      have hmem : r.topic ∈ b₁.existing ∧ ∀ t ∈ b.existing, t ∈ b₁.existing := by
        rw [createTopic] at hct
        by_cases hin : r.topic ∈ b.existing
        · rw [if_pos hin] at hct
          cases hct
          exact ⟨hin, fun t ht => ht⟩
        · rw [if_neg hin] at hct
          by_cases hrf : b.brokerCount < r.replicationFactor
          · rw [if_pos hrf] at hct
            cases hct
          · rw [if_neg hrf] at hct
            cases hct
            exact ⟨by simp, fun t ht => by simp [ht]⟩
      refine ⟨?_, fun t ht => h2 t (hmem.2 t ht)⟩
      intro r₂ hr₂
      rcases List.mem_cons.mp hr₂ with heq | hr₂
      · subst heq
        exact h2 _ hmem.1
      · exact h1 r₂ hr₂

/-- Provisioning a set of already-existing topics succeeds silently and
changes nothing. -/
theorem createTopics_all_present {b : BrokerState} {rs : List ITopicConfig}
    (h : ∀ r ∈ rs, r.topic ∈ b.existing) : createTopics b rs = .ok b := by
  induction rs with
  | nil => rfl
  | cons r rs ih =>
    rw [createTopics_cons]
    have hone : createTopic b r = .ok b := by
      rw [createTopic, if_pos (h r (by simp))]
    simp only [hone]
    exact ih fun r₂ hr₂ => h r₂ (by simp [hr₂])

/-- C8: provisioning is idempotent — after a successful `registerKafka`,
running `registerKafka` again with the same topic set raises no
`ProvisioningError` (the broker's already-exists outcome is success); and
any other provisioning failure is surfaced and aborts the dependent
publisher's `create`. -/
theorem C8_idempotent_provisioning (topics : List String) (b b₂ : BrokerState)
    (h : registerKafka topics b = .ok b₂) :
    registerKafka topics b₂ = .ok b₂ ∧
    ∀ (config : PublisherConfig) (b₃ : BrokerState) (e : ProvisioningError),
      registerKafka [config.topic] b₃ = .error e →
      (BoundKafkaPublisher.create config (.ok ()) b₃).1 =
        .error (.provisioningFailed e) := by
  constructor
  · rw [registerKafka] at h ⊢
    apply createTopics_all_present
    intro r hr
    exact (createTopics_preserves h).1 r hr
  · intro config b₃ e he
    simp only [BoundKafkaPublisher.create, he]

/-- C8 (witness): provisioning `"orders"` twice over an empty three-node
broker. -/
theorem C8_idempotent_provisioning_witness :
    registerKafka ["orders"] ⟨[], 3⟩ = .ok ⟨["orders"], 3⟩ ∧
    (registerKafka ["orders"] ⟨["orders"], 3⟩ = .ok ⟨["orders"], 3⟩ ∧
    ∀ (config : PublisherConfig) (b₃ : BrokerState) (e : ProvisioningError),
      registerKafka [config.topic] b₃ = .error e →
      (BoundKafkaPublisher.create config (.ok ()) b₃).1 =
        .error (.provisioningFailed e)) :=
  ⟨rfl, C8_idempotent_provisioning ["orders"] ⟨[], 3⟩ ⟨["orders"], 3⟩ rfl⟩

/-- C9 (counterexample): `create` whose single producer-connect attempt
fails with the transient-classified error of section 4.1: it rejects at
once — no retry — and its trace shows the connect happened FIRST while
provisioning never happened, refuting "first provisions the topic, then
connects with the Connection Manager's retry discipline". -/
theorem C9_connects_before_provisioning :
    BoundKafkaPublisher.create ⟨"svc-a", "orders"⟩
        (.error ⟨true, "KafkaJSNumberOfRetriesExceeded", "broker down"⟩) ⟨[], 3⟩ =
      (.error (.connectFailed ⟨true, "KafkaJSNumberOfRetriesExceeded", "broker down"⟩),
        [CreateStep.producerConnect]) ∧
    (∀ ts, CreateStep.provisionTopics ts ∉
      (BoundKafkaPublisher.create ⟨"svc-a", "orders"⟩
        (.error ⟨true, "KafkaJSNumberOfRetriesExceeded", "broker down"⟩) ⟨[], 3⟩).2) ∧
    ∀ pub b₂,
      (BoundKafkaPublisher.create ⟨"svc-a", "orders"⟩
        (.error ⟨true, "KafkaJSNumberOfRetriesExceeded", "broker down"⟩) ⟨[], 3⟩).1 ≠
        .ok (pub, b₂) := by
  refine ⟨rfl, ?_, ?_⟩
  · intro ts h
    simp [BoundKafkaPublisher.create] at h
  · intro pub b₂ h
    simp [BoundKafkaPublisher.create] at h

/-- C9 (amended): `create` performs one bare `producer.connect()` FIRST —
any connect failure, transient or not, rejects `create` immediately, with
no retry loop and no provisioning — and only then provisions the bound
topic; when it returns, the publisher is bound to exactly `config.topic`
and the trace is `connect; provision`. -/
theorem C9_create_connects_then_provisions (config : PublisherConfig)
    (b : BrokerState) :
    (∀ e, BoundKafkaPublisher.create config (.error e) b =
      (.error (.connectFailed e), [CreateStep.producerConnect])) ∧
    (BoundKafkaPublisher.create config (.ok ()) b).2 =
      [CreateStep.producerConnect, CreateStep.provisionTopics [config.topic]] ∧
    ∀ pub b₂, (BoundKafkaPublisher.create config (.ok ()) b).1 = .ok (pub, b₂) →
      pub.topic = config.topic := by
  refine ⟨fun e => rfl, ?_, ?_⟩
  · cases hr : registerKafka [config.topic] b <;>
      simp [BoundKafkaPublisher.create, hr]
  · intro pub b₂ h
    cases hr : registerKafka [config.topic] b with
    | error e =>
      simp only [BoundKafkaPublisher.create, hr] at h
      cases h
    | ok b₃ =>
      simp only [BoundKafkaPublisher.create, hr, Except.ok.injEq, Prod.mk.injEq] at h
      rw [← h.1]

/- ### Claim about the consumer group id -/

/-- Characterisation of every finished `initKafka` run. -/
theorem initKafka_some {config : KafkaConfig} {topics : List String}
    {pa ca : List ConnectAttempt} {res : InitKafkaResult}
    (h : initKafka config topics pa ca = some res) :
    res = ⟨⟨some ⟨config.clientId⟩,
      some ⟨config.clientId.getD "default-consumer-group"⟩⟩,
      topics, true, ⟨config.clientId⟩⟩ := by
  simp only [initKafka] at h
  cases hpa : retryKafkaConnection pa with
  | none =>
    simp only [hpa] at h
    cases h
  | some ra =>
    simp only [hpa] at h
    cases hca : retryKafkaConnection ca with
    | none =>
      simp only [hca] at h
      cases h
    | some rc =>
      simp only [hca, Option.some.injEq] at h
      exact h.symm

/-- C10: the consumer group id is never an independent input of
`initKafka`: the consumer is created with group id `config.clientId` when
defined and the literal `"default-consumer-group"` otherwise, so two runs
sharing a `clientId` join the same consumer group. -/
theorem C10_consumer_group_id (config : KafkaConfig) (topics : List String)
    (pa ca : List ConnectAttempt) (res : InitKafkaResult)
    (h : initKafka config topics pa ca = some res) :
    res.state.consumer = some ⟨match config.clientId with
      | some cid => cid
      | none => "default-consumer-group"⟩ ∧
    ∀ (config₂ : KafkaConfig) (topics₂ : List String)
      (pa₂ ca₂ : List ConnectAttempt) (res₂ : InitKafkaResult),
      config₂.clientId = config.clientId →
      initKafka config₂ topics₂ pa₂ ca₂ = some res₂ →
      res₂.state.consumer = res.state.consumer := by
  have hres := initKafka_some h
  constructor
  · rw [hres]
    cases config.clientId <;> rfl
  · intro c₂ t₂ p₂ cca₂ r₂ hcid h₂
    have hres₂ := initKafka_some h₂
    rw [hres, hres₂, hcid]

/-- C10 (witness): a run with `clientId: "svc-a"` lands in consumer group
`"svc-a"`. -/
theorem C10_consumer_group_id_witness :
    initKafka ⟨some "svc-a", ["localhost:9092"]⟩ ["orders"]
        [ConnectAttempt.ok] [ConnectAttempt.ok] =
      some ⟨⟨some ⟨some "svc-a"⟩, some ⟨"svc-a"⟩⟩, ["orders"], true, ⟨some "svc-a"⟩⟩ ∧
    ((⟨⟨some ⟨some "svc-a"⟩, some ⟨"svc-a"⟩⟩, ["orders"], true,
        ⟨some "svc-a"⟩⟩ : InitKafkaResult).state.consumer =
      some ⟨match (some "svc-a" : Option String) with
        | some cid => cid
        | none => "default-consumer-group"⟩ ∧
    ∀ (config₂ : KafkaConfig) (topics₂ : List String)
      (pa₂ ca₂ : List ConnectAttempt) (res₂ : InitKafkaResult),
      config₂.clientId = some "svc-a" →
      initKafka config₂ topics₂ pa₂ ca₂ = some res₂ →
      res₂.state.consumer =
        (⟨⟨some ⟨some "svc-a"⟩, some ⟨"svc-a"⟩⟩, ["orders"], true,
          ⟨some "svc-a"⟩⟩ : InitKafkaResult).state.consumer) :=
  ⟨rfl, C10_consumer_group_id ⟨some "svc-a", ["localhost:9092"]⟩ ["orders"]
    [ConnectAttempt.ok] [ConnectAttempt.ok] _ rfl⟩
